import Mathlib

/-!
Shallow embedding of the search-and-indexing subsystem of the product-catalog
retrieval layer (services/opensearch_service.py, services/bedrock_service.py,
services/dynamodb_service.py, utils/catalog_loader.py).

Python floats are modelled as rationals (ℚ): every property under scrutiny is
an order/algebraic property of the score arithmetic, not a rounding property.
External collaborators (the search engine, the embedding model, the bulk
helper of the opensearch client library, the DynamoDB batch writer) are
modelled as explicit parameters describing their observable response, exactly
where the source consumes that response.  Python lists are mutable objects;
where a claim depends on aliasing, the heap of list objects is modelled
explicitly (`Mem`), otherwise values are used directly.
-/

set_option maxRecDepth 8192

namespace HyperPersonal

/-- Python `max(list)` with the source's `if all_scores else 0` guard:
`max_score = max(all_scores) if all_scores else 0`
(opensearch_service.py line 714). -/
def listMax : List ℚ → ℚ
  | [] => 0
  | x :: xs => xs.foldl max x

/-- Python `min(list)` with the source's `if all_scores else 0` guard
(opensearch_service.py line 715). -/
def listMin : List ℚ → ℚ
  | [] => 0
  | x :: xs => xs.foldl min x

/-- Per-hit similarity computation of `OpenSearchService.semantic_search`
(opensearch_service.py lines 713-728): min-max normalization of a raw score
against the raw scores of this query's candidate set, with the degenerate
`not (max_score > min_score)` branch mapping positive raw scores to 1 and
non-positive ones to 0. -/
def normSim (allScores : List ℚ) (raw : ℚ) : ℚ :=
  let maxS := listMax allScores
  let minS := listMin allScores
  if maxS > minS then (raw - minS) / (maxS - minS)
  else if raw > 0 then 1 else 0

/-- One engine hit of a KNN search response (`hits['hits'][i]`): the raw
engine `_score` and the `_source` payload, which the query's
`"_source": {"excludes": ["embedding"]}` clause already stripped of the
vector; the payload is abstracted to its document id. -/
structure SemHit where
  score : ℚ
  srcId : String
  deriving DecidableEq

/-- One entry of `semantic_search`'s `results` list (opensearch_service.py
lines 731-736): the `_source` payload annotated with `_score`, `similarity`
and `raw_score`. -/
structure SemResult where
  srcId : String
  score : ℚ
  similarity : ℚ
  raw_score : ℚ
  deriving DecidableEq

/-- Response envelope of `OpenSearchService.semantic_search`
(opensearch_service.py lines 745-753); the wall-clock `took_ms` field is
timing, not data, and is omitted. -/
structure SemEnvelope where
  total_hits : ℕ
  total_candidates : ℕ
  results : List SemResult
  similarity_threshold : ℚ
  max_score : ℚ
  score_min : ℚ
  score_max : ℚ
  deriving DecidableEq

/-- KNN request size of `semantic_search` (opensearch_service.py lines 648
and 653): both the body `size` and the `knn` parameter `k` are
`max(size * 3, 50)`. -/
def knnK (size : ℕ) : ℕ := max (size * 3) 50

/-- Annotation step of `semantic_search`'s result loop (opensearch_service.py
lines 720-735): each candidate hit becomes a result carrying its raw score
and its similarity normalized against the raw scores of the whole candidate
set. -/
def annotateHits (hits : List SemHit) : List SemResult :=
  hits.map (fun h =>
    { srcId := h.srcId
      score := h.score
      similarity := normSim (hits.map SemHit.score) h.score
      raw_score := h.score })

/-- Result-processing pipeline of `semantic_search` (opensearch_service.py
lines 712-739): annotate every candidate, keep those whose normalized
similarity meets the threshold (`if normalized_similarity >=
similarity_threshold`, in candidate order), then truncate to the requested
page size (`results = results[:size]`). -/
def processHits (hits : List SemHit) (threshold : ℚ) (size : ℕ) :
    List SemResult :=
  ((annotateHits hits).filter (fun r => decide (threshold ≤ r.similarity))).take size

/-- Raw scores of the candidate set, `all_scores` of opensearch_service.py
line 713, for an engine response to the over-fetched KNN request. -/
def candidateScores (engine : ℕ → List SemHit) (size : ℕ) : List ℚ :=
  (engine (knnK size)).map SemHit.score

/-- Model of `OpenSearchService.semantic_search` (opensearch_service.py lines
633-757).  The engine is a function from the requested number of nearest
neighbours to the hits it returns for this query (the optional filters only
shape the engine request and are absorbed into that function); the dimension
check of lines 643-644 raises `ValueError`, modelled as `.error`. -/
def semantic_search (query_embedding : List ℚ) (engine : ℕ → List SemHit)
    (size : ℕ) (similarity_threshold : ℚ) : Except String SemEnvelope :=
  if query_embedding.length ≠ 1024 then
    .error "Expected embedding dimension 1024"
  else
    let hits := engine (knnK size)
    let all_scores := hits.map SemHit.score
    let results := processHits hits similarity_threshold size
    .ok
      { total_hits := results.length
        total_candidates := hits.length
        results := results
        similarity_threshold := similarity_threshold
        max_score := listMax all_scores
        score_min := listMin all_scores
        score_max := listMax all_scores }

/-- One engine hit of a lexical search response: raw `_score` plus the
`_source` payload, abstracted to its document id. -/
structure LexHit where
  score : ℚ
  srcId : String
  deriving DecidableEq

/-- One entry of `search_products`' results (opensearch_service.py lines
610-613): the `_source` payload with the raw `_score` attached. -/
structure LexResult where
  srcId : String
  score : ℚ
  deriving DecidableEq

/-- Engine response consumed by `search_products`: the engine-reported total
match count `hits['total']['value']`, the returned page `hits['hits']`, and
`hits['max_score']` (default 0). -/
structure LexResponse where
  totalValue : ℕ
  hits : List LexHit
  maxScore : ℚ
  deriving DecidableEq

/-- Response envelope of `OpenSearchService.search_products`
(opensearch_service.py lines 619-627); `took_ms` omitted as timing. -/
structure LexEnvelope where
  query : String
  total_hits : ℕ
  results : List LexResult
  from_ : ℕ
  size : ℕ
  max_score : ℚ
  deriving DecidableEq

/-- Model of `OpenSearchService.search_products` result assembly
(opensearch_service.py lines 600-627): `total_hits` is the engine's total
match count, independent of how many hits the page holds. -/
def search_products (query : String) (response : LexResponse)
    (size from_ : ℕ) : LexEnvelope :=
  { query := query
    total_hits := response.totalValue
    results := response.hits.map (fun h => { srcId := h.srcId, score := h.score })
    from_ := from_
    size := size
    max_score := response.maxScore }

/-- Observable outcome of the external Bedrock model call inside
`BedrockService.generate_embeddings`: either the call (or response parsing)
raised, or it produced `response_body.get('embedding', [])`. -/
inductive ModelOutcome where
  | failure
  | response (embedding : List ℚ)
  deriving DecidableEq

/-- Python `str.strip()`: drop whitespace from both ends. -/
def pyStrip (s : String) : String :=
  String.mk (((s.data.dropWhile Char.isWhitespace).reverse.dropWhile
    Char.isWhitespace).reverse)

/-- Model of `BedrockService.generate_embeddings` (bedrock_service.py lines
40-99).  Python's `text.strip()` is modelled by `pyStrip`; the 8000-char
truncation only shapes the text sent to the model and is absorbed into the
`model` outcome parameter.  All failure paths return the zero vector, and a
response of the wrong dimension is truncated or right-padded to 1024. -/
def generate_embeddings (text : String) (model : ModelOutcome) : List ℚ :=
  let cleaned := pyStrip text
  if cleaned = "" then List.replicate 1024 0
  else
    match model with
    | .failure => List.replicate 1024 0
    | .response embedding =>
      if embedding = [] then List.replicate 1024 0
      else if embedding.length ≠ 1024 then
        if embedding.length > 1024 then embedding.take 1024
        else embedding ++ List.replicate (1024 - embedding.length) 0
      else embedding

/-- Heap of Python list objects: cell index = object identity, cell content =
the list's current value.  `get` of an unallocated index defaults to `[]`;
real executions only dereference allocated cells. -/
structure Mem where
  cells : List (List ℚ)
  deriving DecidableEq

/-- Dereference a list object. -/
def Mem.get (m : Mem) (r : ℕ) : List ℚ := m.cells.getD r []

/-- In-place mutation of an existing list object (Python `list.extend`). -/
def Mem.set (m : Mem) (r : ℕ) (v : List ℚ) : Mem := ⟨m.cells.set r v⟩

/-- Allocation of a fresh list object (Python list literal / slice). -/
def Mem.alloc (m : Mem) (v : List ℚ) : Mem × ℕ :=
  (⟨m.cells ++ [v]⟩, m.cells.length)

/-- A product dict as seen by `bulk_index_products`: its id and its
`embedding` entry, which is either absent or a reference to a list object. -/
structure RefProduct where
  id : String
  embedding : Option ℕ
  deriving DecidableEq

/-- Embedding-normalization step of `OpenSearchService.bulk_index_products`
(opensearch_service.py lines 374-396) on the heap model.
`product_copy = product.copy()` is a shallow copy, so the copy's `embedding`
entry references the caller's own list object.  The missing/falsy branch and
the too-long branch rebind the copy's entry to a freshly allocated list; the
too-short branch calls `.extend(...)`, mutating the shared object in place
and keeping the reference. -/
def normalizeInPlace (m : Mem) (p : RefProduct) : Mem × RefProduct :=
  match p.embedding with
  | none =>
    let a := m.alloc (List.replicate 1024 0)
    (a.1, { p with embedding := some a.2 })
  | some r =>
    let l := m.get r
    if l = [] then
      let a := m.alloc (List.replicate 1024 0)
      (a.1, { p with embedding := some a.2 })
    else if l.length ≠ 1024 then
      if l.length > 1024 then
        let a := m.alloc (l.take 1024)
        (a.1, { p with embedding := some a.2 })
      else
        (m.set r (l ++ List.replicate (1024 - l.length) 0), p)
    else (m, p)

/-- The action-preparation loop of `bulk_index_products` (opensearch_service.py
lines 372-396): each product is normalized in turn, threading the heap;
the returned list holds the `_source` documents of the bulk actions. -/
def bulkPrepare : Mem → List RefProduct → Mem × List RefProduct
  | m, [] => (m, [])
  | m, p :: ps =>
    let step := normalizeInPlace m p
    let rest := bulkPrepare step.1 ps
    (rest.1, step.2 :: rest.2)

/-- Value of a document's embedding under a heap. -/
def docEmbedding (m : Mem) (d : RefProduct) : List ℚ :=
  match d.embedding with
  | some r => m.get r
  | none => []

/-- Embedding value actually carried by the document sent to the index for a
single product, after its normalization step. -/
def normalizedValue (m : Mem) (p : RefProduct) : List ℚ :=
  docEmbedding (normalizeInPlace m p).1 (normalizeInPlace m p).2

/-- One per-document error entry (`{"id": ..., "error": ...}`) of
`bulk_index_products`' error reporting. -/
structure DocErr where
  id : String
  reason : String
  deriving DecidableEq

/-- Observable outcome of the external `opensearchpy.helpers.bulk` call
(opensearch_service.py lines 403-413): with `raise_on_error=False` the helper
returns `(successful, failed)` without raising on per-document errors; the
`BulkIndexError` branch (lines 427-448) models the helper raising with a
per-document error list. -/
inductive BulkOutcome where
  | ok (successful : ℕ) (failed : List DocErr)
  | bulkIndexError (errors : List DocErr)
  deriving DecidableEq

/-- Structured result object returned by `bulk_index_products`
(opensearch_service.py lines 419-425 and 443-449).  `successful` is an
integer because the `BulkIndexError` branch computes
`len(products) - len(failed_docs)` with Python integer subtraction. -/
structure BulkResult where
  success : Bool
  total_products : ℕ
  successful : ℤ
  failed : ℕ
  errors : List DocErr
  deriving DecidableEq

/-- Result assembly of `OpenSearchService.bulk_index_products`
(opensearch_service.py lines 398-449) as a function of the bulk helper's
outcome.  In the normal path (lines 419-425) `success` is the literal `True`;
in the `BulkIndexError` path (lines 443-449) it is `successful_count > 0`.
Both paths bound `errors` to the first 10 entries. -/
def bulk_index_products (products : List RefProduct) (outcome : BulkOutcome) :
    BulkResult :=
  match outcome with
  | .ok successful failed =>
    { success := true
      total_products := products.length
      successful := (successful : ℤ)
      failed := failed.length
      errors := failed.take 10 }
  | .bulkIndexError errs =>
    { success := decide (0 < (products.length : ℤ) - errs.length)
      total_products := products.length
      successful := (products.length : ℤ) - errs.length
      failed := errs.length
      errors := errs.take 10 }

/-- A processed product as written to the document store: id, display fields
(abstracted to `name` and `price`), the `embedding` entry produced by the
embed stage, and the store-layer timestamps. -/
structure StoreProduct where
  id : String
  name : String
  price : ℚ
  embedding : Option (List ℚ)
  created_at : Option String
  updated_at : Option String
  deriving DecidableEq

/-- Model of `DynamoDBService.batch_write_products` (dynamodb_service.py
lines 296-314): for each product it sets `created_at`/`updated_at` and writes
the item produced by `_prepare_item_for_dynamodb` (lines 114-125), which
recursively converts float values to Decimal — a value encoding, modelled as
the identity on the rational value — and removes no key: in particular the
`embedding` entry, when present on the input product, is written to the
store. -/
def batch_write_products (now : String) (products : List StoreProduct) :
    List StoreProduct :=
  products.map (fun p => { p with created_at := some now, updated_at := some now })

/-- Model of `CatalogLoader.load_to_dynamodb` (catalog_loader.py lines
317-326): passes the processed products — which carry the embeddings attached
by `process_products_for_search` — unchanged to `batch_write_products`. -/
def load_to_dynamodb (now : String) (products : List StoreProduct) :
    List StoreProduct :=
  batch_write_products now products

/-- Raw `stock_status` value: the source checks `isinstance(stock_status,
str)` and otherwise applies `bool(...)`; non-string values are abstracted to
their truthiness. -/
inductive StockStatus where
  | s (v : String)
  | b (v : Bool)
  deriving DecidableEq

/-- A price field value as found in a raw catalog record: already numeric, or
a string to be coerced. -/
inductive PriceVal where
  | num (q : ℚ)
  | str (v : String)
  deriving DecidableEq

/-- Raw catalog record, restricted to the fields `_transform_product_data`
reads (catalog_loader.py lines 224-282). -/
structure RawProduct where
  name : Option String
  stock_status : Option StockStatus
  id : Option String
  product_id : Option String
  rating : Option ℚ
  reviews_count : Option ℤ
  price : Option PriceVal
  image_url : Option String
  deriving DecidableEq

/-- Product record after `_transform_product_data`: `in_stock` is always set,
`product_id` always exists, `rating` and `reviews_count` have defaults. -/
structure TransformedProduct where
  name : Option String
  stock_status : Option StockStatus
  in_stock : Bool
  id : Option String
  product_id : String
  rating : ℚ
  reviews_count : ℤ
  price : Option PriceVal
  image_url : Option String
  deriving DecidableEq

/-- Substring occurrence test over character lists (Python `needle in s`). -/
def occursIn (needle : List Char) : List Char → Bool
  | [] => needle.isEmpty
  | c :: rest => needle.isPrefixOf (c :: rest) || occursIn needle rest

/-- Python `sub in s` on strings. -/
def strContains (s sub : String) : Bool := occursIn sub.data s.data

/-- Leftmost match of the pattern `/images/([^?]+)` (catalog_loader.py line
270): scan for an occurrence of `/images/` followed by at least one
non-`?` character, and capture the maximal run of non-`?` characters after
it; on a `?` immediately after `/images/` the scan resumes at the next
position, as regex backtracking does. -/
def imagesCaptureAux : List Char → Option (List Char)
  | [] => none
  | c :: rest =>
    if "/images/".data.isPrefixOf (c :: rest) then
      let cap := ((c :: rest).drop 8).takeWhile (fun ch => ch ≠ '?')
      if cap = [] then imagesCaptureAux rest else some cap
    else imagesCaptureAux rest

/-- Capture group of `re.search(r'/images/([^?]+)', url)` as a string. -/
def imagesCapture (url : String) : Option String :=
  (imagesCaptureAux url.data).map (fun l => String.mk l)

/-- Image-path normalization of `_transform_product_data` (catalog_loader.py
lines 263-280), for a string-valued `image_url`. -/
def normalizeImageUrl (url : String) : String :=
  if strContains url "s3.amazonaws.com" || strContains url "s3-" then
    match imagesCapture url with
    | some cap => "/images/" ++ cap
    | none => if ¬ url.startsWith "/images/" then "/images/" ++ url else url
  else if ¬ url.startsWith "/images/" ∧ ¬ url.startsWith "http" then
    "/images/" ++ url
  else url

/-- Decimal value of a digit run. -/
def digitsVal (l : List Char) : ℕ :=
  l.foldl (fun acc c => acc * 10 + (c.toNat - '0'.toNat)) 0

/-- Model of the builtin `float(str)` used by the price coercion
(catalog_loader.py line 259): leading/trailing whitespace stripped, optional
sign, decimal digits with an optional fractional part.  Exponent, infinity
and nan forms — never produced by catalog price fields — are omitted;
`none` models `float(...)` raising `ValueError`. -/
def pyFloat? (s : String) : Option ℚ :=
  let parseUnsigned : List Char → Option ℚ := fun cs =>
    let intPart := cs.takeWhile Char.isDigit
    let rest := cs.dropWhile Char.isDigit
    match rest with
    | [] => if intPart = [] then none else some (digitsVal intPart : ℚ)
    | '.' :: frac =>
      if frac.all Char.isDigit ∧ (intPart ≠ [] ∨ frac ≠ []) then
        some ((digitsVal intPart : ℚ) +
          (digitsVal frac : ℚ) / (10 : ℚ) ^ frac.length)
      else none
    | _ => none
  match (pyStrip s).data with
  | '-' :: rest => (parseUnsigned rest).map (fun q => -q)
  | '+' :: rest => parseUnsigned rest
  | cs => parseUnsigned cs

/-- Model of `CatalogLoader._transform_product_data` (catalog_loader.py lines
224-282).  `pyHash` stands for Python's environment-salted `hash(str)` used
only by the generated-id fallback.  An unparseable string price is coerced to
`0.0` (lines 256-261); the record is returned, never rejected. -/
def _transform_product_data (pyHash : String → Int) (p : RawProduct) :
    TransformedProduct :=
  { name := p.name
    stock_status := p.stock_status
    in_stock :=
      match p.stock_status with
      | some (.s v) =>
        decide (v.toLower ∈ (["in stock", "available", "yes", "true"] : List String))
      | some (.b b) => b
      | none => true
    id := p.id
    product_id :=
      match p.product_id, p.id with
      | some pid, _ => pid
      | none, some i => i
      | none, none => "PROD_" ++ toString (pyHash (p.name.getD "unknown"))
    rating := p.rating.getD 4
    reviews_count := p.reviews_count.getD 0
    price :=
      match p.price with
      | some (.str v) => some (.num ((pyFloat? v).getD 0))
      | other => other
    image_url := p.image_url.map normalizeImageUrl }

/-- Model of `CatalogLoader.process_products_for_search` (catalog_loader.py
lines 196-218): every raw product is transformed and appended with the
embedding produced for its searchable text; `embed` returns the generated
vector, or `none` when the embedding call raises, in which case the loader
stores `[]` and continues (lines 205-213).  No product is ever skipped. -/
def process_products_for_search (pyHash : String → Int)
    (embed : TransformedProduct → Option (List ℚ))
    (products : List RawProduct) : List (TransformedProduct × List ℚ) :=
  products.map (fun p =>
    let tp := _transform_product_data pyHash p
    match embed tp with
    | some e => (tp, e)
    | none => (tp, []))

/-! ## Helper lemmas -/

theorem foldl_max_le_self (xs : List ℚ) (a : ℚ) : a ≤ xs.foldl max a := by
  induction xs generalizing a with
  | nil => simp
  | cons x xs ih => exact le_trans (le_max_left a x) (ih (max a x))

theorem mem_le_foldl_max (xs : List ℚ) (a x : ℚ) (hx : x ∈ xs) :
    x ≤ xs.foldl max a := by
  induction xs generalizing a with
  | nil => cases hx
  | cons y ys ih =>
    rcases List.mem_cons.mp hx with h | h
    · subst h
      exact le_trans (le_max_right a x) (foldl_max_le_self ys (max a x))
    · exact ih (max a y) h

theorem foldl_min_le_self (xs : List ℚ) (a : ℚ) : xs.foldl min a ≤ a := by
  induction xs generalizing a with
  | nil => simp
  | cons x xs ih => exact le_trans (ih (min a x)) (min_le_left a x)

theorem foldl_min_le_mem (xs : List ℚ) (a x : ℚ) (hx : x ∈ xs) :
    xs.foldl min a ≤ x := by
  induction xs generalizing a with
  | nil => cases hx
  | cons y ys ih =>
    rcases List.mem_cons.mp hx with h | h
    · subst h
      exact le_trans (foldl_min_le_self ys (min a x)) (min_le_right a x)
    · exact ih (min a y) h

theorem le_listMax (l : List ℚ) (x : ℚ) (hx : x ∈ l) : x ≤ listMax l := by
  cases l with
  | nil => cases hx
  | cons y ys =>
    rcases List.mem_cons.mp hx with h | h
    · subst h; exact foldl_max_le_self ys x
    · exact mem_le_foldl_max ys y x h

theorem listMin_le (l : List ℚ) (x : ℚ) (hx : x ∈ l) : listMin l ≤ x := by
  cases l with
  | nil => cases hx
  | cons y ys =>
    rcases List.mem_cons.mp hx with h | h
    · subst h; exact foldl_min_le_self ys x
    · exact foldl_min_le_mem ys y x h

theorem normSim_nonneg (allScores : List ℚ) (raw : ℚ) (h : raw ∈ allScores) :
    0 ≤ normSim allScores raw := by
  unfold normSim
  by_cases hlt : listMax allScores > listMin allScores
  · simp only [hlt, if_true]
    exact div_nonneg (by linarith [listMin_le allScores raw h]) (by linarith)
  · simp only [hlt, if_false]
    by_cases hp : raw > 0 <;> simp [hp]

theorem normSim_le_one (allScores : List ℚ) (raw : ℚ) (h : raw ∈ allScores) :
    normSim allScores raw ≤ 1 := by
  unfold normSim
  by_cases hlt : listMax allScores > listMin allScores
  · simp only [hlt, if_true]
    rw [div_le_one (by linarith)]
    linarith [le_listMax allScores raw h]
  · simp only [hlt, if_false]
    by_cases hp : raw > 0 <;> simp [hp]

theorem normSim_formula (allScores : List ℚ) (raw : ℚ)
    (h : listMin allScores < listMax allScores) :
    normSim allScores raw =
      (raw - listMin allScores) / (listMax allScores - listMin allScores) := by
  unfold normSim
  simp [h]

theorem normSim_max (allScores : List ℚ)
    (h : listMin allScores < listMax allScores) :
    normSim allScores (listMax allScores) = 1 := by
  rw [normSim_formula allScores _ h]
  exact div_self (by linarith)

theorem normSim_min (allScores : List ℚ)
    (h : listMin allScores < listMax allScores) :
    normSim allScores (listMin allScores) = 0 := by
  rw [normSim_formula allScores _ h]
  simp

theorem normSim_degenerate (allScores : List ℚ) (raw : ℚ)
    (h : listMax allScores = listMin allScores) :
    normSim allScores raw = if 0 < raw then 1 else 0 := by
  unfold normSim
  simp [h]

theorem semantic_search_ok (q : List ℚ) (engine : ℕ → List SemHit)
    (size : ℕ) (thr : ℚ) (env : SemEnvelope)
    (henv : semantic_search q engine size thr = .ok env) :
    env.results = processHits (engine (knnK size)) thr size ∧
    env.total_hits = (processHits (engine (knnK size)) thr size).length ∧
    env.total_candidates = (engine (knnK size)).length := by
  unfold semantic_search at henv
  by_cases h : q.length ≠ 1024
  · simp [h] at henv
  · simp only [h, if_false] at henv
    cases henv
    exact ⟨rfl, rfl, rfl⟩

theorem mem_processHits (hits : List SemHit) (thr : ℚ) (size : ℕ)
    (r : SemResult) (hr : r ∈ processHits hits thr size) :
    ∃ h ∈ hits,
      r.srcId = h.srcId ∧ r.score = h.score ∧ r.raw_score = h.score ∧
      r.similarity = normSim (hits.map SemHit.score) h.score ∧
      thr ≤ r.similarity := by
  unfold processHits at hr
  have h1 : r ∈ (annotateHits hits).filter
      (fun r => decide (thr ≤ r.similarity)) := List.take_subset _ _ hr
  have h2 := List.mem_filter.mp h1
  have h3 := h2.2
  unfold annotateHits at h2
  obtain ⟨h, hh, he⟩ := List.mem_map.mp h2.1
  refine ⟨h, hh, ?_, ?_, ?_, ?_, ?_⟩
  · rw [← he]
  · rw [← he]
  · rw [← he]
  · rw [← he]
  · exact of_decide_eq_true h3

theorem raw_score_mem_candidateScores (hits : List SemHit) (thr : ℚ)
    (size : ℕ) (r : SemResult) (hr : r ∈ processHits hits thr size) :
    r.raw_score ∈ hits.map SemHit.score := by
  obtain ⟨h, hh, _, _, hraw, _, _⟩ := mem_processHits hits thr size r hr
  rw [hraw]
  exact List.mem_map_of_mem SemHit.score hh

/-! ## Claim C1: vector-search score normalization -/

/-- C1.  Vector-search score normalization: every result returned by
`semantic_search` carries a similarity equal to the min-max normalization of
its raw score over this query's candidate set; that similarity lies in
[0, 1]; when the candidate scores are not all equal, the maximum raw score
normalizes to 1 and the minimum to 0 and the similarity is exactly
`(raw - min) / (max - min)`; in the degenerate case `max = min`, a positive
raw score gets similarity 1 and a non-positive one gets 0. -/
theorem semantic_search_score_normalization
    (q : List ℚ) (engine : ℕ → List SemHit) (size : ℕ) (thr : ℚ)
    (env : SemEnvelope) (r : SemResult)
    (henv : semantic_search q engine size thr = .ok env)
    (hr : r ∈ env.results) :
    r.similarity = normSim (candidateScores engine size) r.raw_score ∧
    0 ≤ r.similarity ∧ r.similarity ≤ 1 ∧
    (listMin (candidateScores engine size) < listMax (candidateScores engine size) →
      r.similarity =
        (r.raw_score - listMin (candidateScores engine size)) /
          (listMax (candidateScores engine size) - listMin (candidateScores engine size)) ∧
      normSim (candidateScores engine size) (listMax (candidateScores engine size)) = 1 ∧
      normSim (candidateScores engine size) (listMin (candidateScores engine size)) = 0) ∧
    (listMax (candidateScores engine size) = listMin (candidateScores engine size) →
      r.similarity = if 0 < r.raw_score then 1 else 0) := by
  obtain ⟨hres, _, _⟩ := semantic_search_ok q engine size thr env henv
  rw [hres] at hr
  have hmem := raw_score_mem_candidateScores _ thr size r hr
  obtain ⟨h, hh, _, _, hraw, hsim, _⟩ := mem_processHits _ thr size r hr
  have hsim' : r.similarity = normSim (candidateScores engine size) r.raw_score := by
    rw [hsim, hraw]; rfl
  refine ⟨hsim', ?_, ?_, ?_, ?_⟩
  · rw [hsim']; exact normSim_nonneg _ _ hmem
  · rw [hsim']; exact normSim_le_one _ _ hmem
  · intro hlt
    exact ⟨by rw [hsim']; exact normSim_formula _ _ hlt,
      normSim_max _ hlt, normSim_min _ hlt⟩
  · intro heq
    rw [hsim']
    exact normSim_degenerate _ _ heq

/-- Witness for C1 at a concrete query: a single-candidate search (degenerate
case, positive raw score) reports similarity 1, which is within [0, 1]. -/
theorem semantic_search_score_normalization_witness :
    (0 : ℚ) ≤ (⟨"a", 1, 1, 1⟩ : SemResult).similarity ∧
    (⟨"a", 1, 1, 1⟩ : SemResult).similarity ≤ 1 :=
  ⟨(semantic_search_score_normalization (List.replicate 1024 0)
      (fun _ => [⟨1, "a"⟩]) 10 0 _ _ rfl (by decide)).2.1,
   (semantic_search_score_normalization (List.replicate 1024 0)
      (fun _ => [⟨1, "a"⟩]) 10 0 _ _ rfl (by decide)).2.2.1⟩

/-! ## Claim C3: embedding generation is fail-soft -/

theorem generate_embeddings_length (text : String) (model : ModelOutcome) :
    (generate_embeddings text model).length = 1024 := by
  by_cases h0 : pyStrip text = ""
  · simp [generate_embeddings, h0]
  · cases model with
    | failure => simp [generate_embeddings, h0]
    | response e =>
      by_cases h1 : e = []
      · simp [generate_embeddings, h0, h1]
      · by_cases h2 : e.length = 1024
        · simp [generate_embeddings, h0, h1, h2]
        · by_cases h3 : e.length > 1024
          · simp only [generate_embeddings, h0, if_false, h1, h2, h3, if_true,
              ne_eq, not_false_iff, List.length_take]
            omega
          · simp only [generate_embeddings, h0, if_false, h1, h2, h3, if_true,
              ne_eq, not_false_iff, List.length_append, List.length_replicate]
            omega

/-- C3.  The embedding generator is fail-soft: it always returns a vector of
exactly 1024 entries; whitespace-only input yields the zero vector whatever
the model would have answered; a raised model call or an empty model response
yields the zero vector; and a model response of the wrong length is truncated
or right-padded with zeros to exactly 1024. -/
theorem generate_embeddings_fail_soft (text : String) (model : ModelOutcome)
    (e : List ℚ) (htext : pyStrip text ≠ "") (hne : e ≠ []) :
    (generate_embeddings text model).length = 1024 ∧
    (∀ (t : String) (m : ModelOutcome), pyStrip t = "" →
      generate_embeddings t m = List.replicate 1024 0) ∧
    (∀ t : String, generate_embeddings t .failure = List.replicate 1024 0) ∧
    (∀ t : String, generate_embeddings t (.response []) = List.replicate 1024 0) ∧
    (1024 < e.length →
      generate_embeddings text (.response e) = e.take 1024) ∧
    (e.length < 1024 →
      generate_embeddings text (.response e) =
        e ++ List.replicate (1024 - e.length) 0) ∧
    (e.length = 1024 → generate_embeddings text (.response e) = e) := by
  refine ⟨generate_embeddings_length text model, ?_, ?_, ?_, ?_, ?_, ?_⟩
  · intro t m ht
    cases m <;> simp [generate_embeddings, ht]
  · intro t
    by_cases ht : pyStrip t = "" <;> simp [generate_embeddings, ht]
  · intro t
    by_cases ht : pyStrip t = "" <;> simp [generate_embeddings, ht]
  · intro hgt
    have h2 : e.length ≠ 1024 := by omega
    simp [generate_embeddings, htext, hne, h2, hgt]
  · intro hlt
    have h2 : e.length ≠ 1024 := by omega
    have h3 : ¬ e.length > 1024 := by omega
    simp [generate_embeddings, htext, hne, h2, h3]
  · intro heq
    simp [generate_embeddings, htext, hne, heq]

/-- Witness for C3: a 1500-entry model response for non-empty text is
truncated to its first 1024 entries. -/
theorem generate_embeddings_fail_soft_witness :
    generate_embeddings "hello" (.response (List.replicate 1500 1)) =
      (List.replicate 1500 (1 : ℚ)).take 1024 :=
  (generate_embeddings_fail_soft "hello" .failure (List.replicate 1500 1)
    (by decide) (by simp)).2.2.2.2.1 (by simp)

/-! ## Claim C6: vector-search dimension precondition is a hard error -/

/-- C6.  A query embedding whose length differs from 1024 makes
`semantic_search` raise a `ValueError` to the caller (no padding, truncation
or soft-failing of the query vector) — in contrast, the embedding generator
given the same wrong-length vector as a model response soft-fixes it to
length 1024. -/
theorem semantic_search_dimension_hard_error
    (q : List ℚ) (engine : ℕ → List SemHit) (size : ℕ) (thr : ℚ)
    (h : q.length ≠ 1024) :
    semantic_search q engine size thr =
      .error "Expected embedding dimension 1024" ∧
    (generate_embeddings "query text" (ModelOutcome.response q)).length = 1024 := by
  constructor
  · unfold semantic_search
    simp [h]
  · exact generate_embeddings_length _ _

/-- Witness for C6: a 3-entry query vector is rejected with the dimension
error. -/
theorem semantic_search_dimension_hard_error_witness :
    semantic_search [1, 2, 3] (fun _ => []) 10 0 =
      .error "Expected embedding dimension 1024" :=
  (semantic_search_dimension_hard_error [1, 2, 3] (fun _ => []) 10 0
    (by decide)).1

/-! ## Claim C7: over-fetch and page semantics -/

/-- C7.  The engine is asked for exactly `max(3 * size, 50)` nearest
neighbours; the returned page is the first `size` annotated candidates whose
normalized similarity meets the threshold, in the engine's native order
(the page is a sublist of the annotated candidate list — normalization
filters and annotates but never re-ranks); when at most `size` candidates
clear the threshold, all of them (and only them) are returned; an empty
filtered set yields an empty, non-error result. -/
theorem semantic_search_overfetch_and_page
    (q : List ℚ) (engine : ℕ → List SemHit) (size : ℕ) (thr : ℚ)
    (env : SemEnvelope)
    (henv : semantic_search q engine size thr = .ok env) :
    knnK size = max (3 * size) 50 ∧
    env.results = ((annotateHits (engine (max (3 * size) 50))).filter
        (fun r => decide (thr ≤ r.similarity))).take size ∧
    env.results.Sublist (annotateHits (engine (knnK size))) ∧
    env.results.length ≤ size ∧
    (((annotateHits (engine (knnK size))).filter
        (fun r => decide (thr ≤ r.similarity))).length ≤ size →
      env.results = (annotateHits (engine (knnK size))).filter
        (fun r => decide (thr ≤ r.similarity))) ∧
    ((annotateHits (engine (knnK size))).filter
        (fun r => decide (thr ≤ r.similarity)) = [] → env.results = []) := by
  have hk : knnK size = max (3 * size) 50 := by
    unfold knnK
    rw [Nat.mul_comm]
  obtain ⟨hres, hth, htc⟩ := semantic_search_ok q engine size thr env henv
  refine ⟨hk, ?_, ?_, ?_, ?_, ?_⟩
  · rw [hres, ← hk]
    rfl
  · rw [hres]
    exact List.Sublist.trans (List.take_sublist _ _) (List.filter_sublist _)
  · rw [hres]
    unfold processHits
    exact List.length_take_le _ _
  · intro hle
    rw [hres]
    unfold processHits
    exact List.take_of_length_le hle
  · intro hemp
    rw [hres]
    unfold processHits
    rw [hemp]
    simp

/-- Witness for C7 on a concrete query whose candidate set is empty: the page
is within the requested size. -/
theorem semantic_search_overfetch_and_page_witness :
    ((⟨0, 0, [], 0, 0, 0, 0⟩ : SemEnvelope).results).length ≤ 10 :=
  (semantic_search_overfetch_and_page (List.replicate 1024 0) (fun _ => [])
    10 0 ⟨0, 0, [], 0, 0, 0, 0⟩ rfl).2.2.2.1

/-! ## Claim C9: total_hits semantics of the two search envelopes -/

/-- C9.  In the vector-search envelope, `total_hits` equals the length of the
returned results list after threshold filtering and truncation (hence
`total_hits ≤ size`), and the pre-filter candidate count is reported
separately as `total_candidates`; in the lexical envelope, `total_hits` is
the engine's total match count while the results list holds only the returned
page, so `total_hits` can exceed the number of returned results (concrete
instance: engine total 100, one returned hit). -/
theorem semantic_total_hits_semantics
    (q : List ℚ) (engine : ℕ → List SemHit) (size : ℕ) (thr : ℚ)
    (env : SemEnvelope)
    (henv : semantic_search q engine size thr = .ok env) :
    env.total_hits = env.results.length ∧
    env.total_hits ≤ size ∧
    env.total_candidates = (engine (knnK size)).length ∧
    (∀ (query : String) (resp : LexResponse) (sz fr : ℕ),
      (search_products query resp sz fr).total_hits = resp.totalValue ∧
      (search_products query resp sz fr).results.length = resp.hits.length) ∧
    (search_products "q" ⟨100, [⟨1, "a"⟩], 1⟩ 10 0).total_hits = 100 ∧
    (search_products "q" ⟨100, [⟨1, "a"⟩], 1⟩ 10 0).results.length = 1 := by
  obtain ⟨hres, hth, htc⟩ := semantic_search_ok q engine size thr env henv
  refine ⟨by rw [hth, hres], ?_, htc, ?_, rfl, rfl⟩
  · rw [hth]
    unfold processHits
    exact List.length_take_le _ _
  · intro query resp sz fr
    exact ⟨rfl, by simp [search_products]⟩

/-- Witness for C9 at a concrete query with an empty candidate set:
`total_hits` equals the returned-results count. -/
theorem semantic_total_hits_semantics_witness :
    (⟨0, 0, [], 0, 0, 0, 0⟩ : SemEnvelope).total_hits =
      ((⟨0, 0, [], 0, 0, 0, 0⟩ : SemEnvelope).results).length :=
  (semantic_total_hits_semantics (List.replicate 1024 0) (fun _ => [])
    10 0 ⟨0, 0, [], 0, 0, 0, 0⟩ rfl).1

/-! ## Heap lemmas for the bulk-indexing normalization -/

theorem getD_set_self {α : Type} (l : List α) (r : ℕ) (v d : α)
    (h : r < l.length) : (l.set r v).getD r d = v := by
  induction l generalizing r with
  | nil => simp at h
  | cons x xs ih =>
    cases r with
    | zero => rfl
    | succ n => exact ih n (by simpa using h)

theorem getD_set_ne {α : Type} (l : List α) (r i : ℕ) (v d : α)
    (h : i ≠ r) : (l.set r v).getD i d = l.getD i d := by
  induction l generalizing r i with
  | nil => rfl
  | cons x xs ih =>
    cases r with
    | zero =>
      cases i with
      | zero => exact absurd rfl h
      | succ j => rfl
    | succ n =>
      cases i with
      | zero => rfl
      | succ j => exact ih n j (fun hc => h (by rw [hc]))

theorem Mem.get_in_range (m : Mem) (r : ℕ) (h : m.get r ≠ []) :
    r < m.cells.length := by
  by_contra hc
  exact h (List.getD_eq_default _ _ (Nat.le_of_not_lt hc))

theorem Mem.get_alloc_fresh (m : Mem) (v : List ℚ) :
    (m.alloc v).1.get (m.alloc v).2 = v := by
  unfold Mem.alloc Mem.get
  simp only [List.getD_append_right m.cells [v] [] m.cells.length (Nat.le_refl _)]
  simp

theorem Mem.get_alloc_preserve (m : Mem) (v : List ℚ) (i : ℕ)
    (h : i < m.cells.length) : (m.alloc v).1.get i = m.get i := by
  unfold Mem.alloc Mem.get
  exact List.getD_append _ _ _ _ h

theorem Mem.get_set_self (m : Mem) (r : ℕ) (v : List ℚ)
    (h : r < m.cells.length) : (m.set r v).get r = v := by
  unfold Mem.set Mem.get
  exact getD_set_self _ _ _ _ h

theorem Mem.get_set_ne (m : Mem) (r i : ℕ) (v : List ℚ) (h : i ≠ r) :
    (m.set r v).get i = m.get i := by
  unfold Mem.set Mem.get
  exact getD_set_ne _ _ _ _ _ h

theorem normalizeInPlace_none (m : Mem) (p : RefProduct)
    (hp : p.embedding = none) :
    normalizeInPlace m p = ((m.alloc (List.replicate 1024 0)).1,
      { p with embedding := some (m.alloc (List.replicate 1024 0)).2 }) := by
  unfold normalizeInPlace
  rw [hp]

theorem normalizeInPlace_empty (m : Mem) (p : RefProduct) (r : ℕ)
    (hp : p.embedding = some r) (hemp : m.get r = []) :
    normalizeInPlace m p = ((m.alloc (List.replicate 1024 0)).1,
      { p with embedding := some (m.alloc (List.replicate 1024 0)).2 }) := by
  unfold normalizeInPlace
  rw [hp]
  simp [hemp]

theorem normalizeInPlace_long (m : Mem) (p : RefProduct) (r : ℕ)
    (hp : p.embedding = some r) (hlong : 1024 < (m.get r).length) :
    normalizeInPlace m p = ((m.alloc ((m.get r).take 1024)).1,
      { p with embedding := some (m.alloc ((m.get r).take 1024)).2 }) := by
  have hne : m.get r ≠ [] := by
    intro hc
    rw [hc] at hlong
    simp at hlong
  have h2 : (m.get r).length ≠ 1024 := by omega
  unfold normalizeInPlace
  rw [hp]
  simp [hne, h2, hlong]

theorem normalizeInPlace_pad (m : Mem) (p : RefProduct) (r : ℕ)
    (hp : p.embedding = some r) (hne : m.get r ≠ [])
    (hshort : (m.get r).length < 1024) :
    normalizeInPlace m p =
      (m.set r (m.get r ++ List.replicate (1024 - (m.get r).length) 0), p) := by
  have h2 : (m.get r).length ≠ 1024 := by omega
  have h3 : ¬ (m.get r).length > 1024 := by omega
  unfold normalizeInPlace
  rw [hp]
  simp [hne, h2, h3]

theorem normalizeInPlace_exact (m : Mem) (p : RefProduct) (r : ℕ)
    (hp : p.embedding = some r) (hlen : (m.get r).length = 1024) :
    normalizeInPlace m p = (m, p) := by
  have hne : m.get r ≠ [] := by
    intro hc
    rw [hc] at hlen
    simp at hlen
  have h2 : ¬ (m.get r).length ≠ 1024 := by omega
  unfold normalizeInPlace
  rw [hp]
  simp [hne, h2]

theorem normalizeInPlace_doc (m : Mem) (p : RefProduct) :
    ∃ r, (normalizeInPlace m p).2.embedding = some r ∧
      ((normalizeInPlace m p).1.get r).length = 1024 := by
  cases hp : p.embedding with
  | none =>
    rw [normalizeInPlace_none m p hp]
    exact ⟨(m.alloc (List.replicate 1024 0)).2, rfl,
      by rw [Mem.get_alloc_fresh]; simp⟩
  | some r0 =>
    by_cases h1 : m.get r0 = []
    · rw [normalizeInPlace_empty m p r0 hp h1]
      exact ⟨(m.alloc (List.replicate 1024 0)).2, rfl,
        by rw [Mem.get_alloc_fresh]; simp⟩
    · by_cases h2 : (m.get r0).length = 1024
      · rw [normalizeInPlace_exact m p r0 hp h2]
        exact ⟨r0, hp, h2⟩
      · by_cases h3 : 1024 < (m.get r0).length
        · rw [normalizeInPlace_long m p r0 hp h3]
          refine ⟨(m.alloc ((m.get r0).take 1024)).2, rfl, ?_⟩
          rw [Mem.get_alloc_fresh]
          simp only [List.length_take]
          omega
        · have hshort : (m.get r0).length < 1024 := by omega
          rw [normalizeInPlace_pad m p r0 hp h1 hshort]
          refine ⟨r0, hp, ?_⟩
          rw [Mem.get_set_self _ _ _ (m.get_in_range r0 h1)]
          simp only [List.length_append, List.length_replicate]
          omega

theorem normalizeInPlace_preserves (m : Mem) (p : RefProduct) (i : ℕ)
    (h : (m.get i).length = 1024) :
    ((normalizeInPlace m p).1.get i).length = 1024 := by
  have hrange : i < m.cells.length := by
    refine Mem.get_in_range m i (fun hc => ?_)
    rw [hc] at h
    simp at h
  cases hp : p.embedding with
  | none =>
    rw [normalizeInPlace_none m p hp]
    rw [Mem.get_alloc_preserve _ _ _ hrange]
    exact h
  | some r0 =>
    by_cases h1 : m.get r0 = []
    · rw [normalizeInPlace_empty m p r0 hp h1]
      rw [Mem.get_alloc_preserve _ _ _ hrange]
      exact h
    · by_cases h2 : (m.get r0).length = 1024
      · rw [normalizeInPlace_exact m p r0 hp h2]
        exact h
      · by_cases h3 : 1024 < (m.get r0).length
        · rw [normalizeInPlace_long m p r0 hp h3]
          rw [Mem.get_alloc_preserve _ _ _ hrange]
          exact h
        · have hshort : (m.get r0).length < 1024 := by omega
          rw [normalizeInPlace_pad m p r0 hp h1 hshort]
          have hne : i ≠ r0 := by
            intro hc
            rw [hc] at h
            omega
          rw [Mem.get_set_ne _ _ _ _ hne]
          exact h

theorem bulkPrepare_preserves (products : List RefProduct) (m : Mem) (i : ℕ)
    (h : (m.get i).length = 1024) :
    ((bulkPrepare m products).1.get i).length = 1024 := by
  induction products generalizing m with
  | nil => exact h
  | cons p ps ih =>
    exact ih (normalizeInPlace m p).1 (normalizeInPlace_preserves m p i h)

theorem bulkPrepare_mem (m : Mem) (products : List RefProduct)
    (d : RefProduct) (hd : d ∈ (bulkPrepare m products).2) :
    ∃ r, d.embedding = some r ∧
      ((bulkPrepare m products).1.get r).length = 1024 := by
  induction products generalizing m with
  | nil => cases hd
  | cons p ps ih =>
    rcases List.mem_cons.mp hd with h | h
    · obtain ⟨r, hr, hlen⟩ := normalizeInPlace_doc m p
      subst h
      exact ⟨r, hr, bulkPrepare_preserves ps (normalizeInPlace m p).1 r hlen⟩
    · exact ih (normalizeInPlace m p).1 h

/-! ## Claim C2: indexed-embedding dimension invariant -/

/-- C2.  Every document produced by the bulk-indexing preparation loop
carries an embedding whose value in the final heap has length exactly 1024;
at the single-product level, a missing embedding and an empty one are
replaced by the all-zero 1024-vector, a longer one is truncated to its first
1024 entries, and a shorter non-empty one is right-padded with zeros to
1024. -/
theorem bulk_index_embedding_dimension
    (m : Mem) (products : List RefProduct) (d p : RefProduct) (r : ℕ)
    (hd : d ∈ (bulkPrepare m products).2) :
    (docEmbedding (bulkPrepare m products).1 d).length = 1024 ∧
    (p.embedding = none → normalizedValue m p = List.replicate 1024 0) ∧
    (p.embedding = some r → m.get r = [] →
      normalizedValue m p = List.replicate 1024 0) ∧
    (p.embedding = some r → 1024 < (m.get r).length →
      normalizedValue m p = (m.get r).take 1024) ∧
    (p.embedding = some r → m.get r ≠ [] → (m.get r).length < 1024 →
      normalizedValue m p =
        m.get r ++ List.replicate (1024 - (m.get r).length) 0) := by
  refine ⟨?_, ?_, ?_, ?_, ?_⟩
  · obtain ⟨r', hr', hlen⟩ := bulkPrepare_mem m products d hd
    unfold docEmbedding
    rw [hr']
    exact hlen
  · intro hp
    unfold normalizedValue
    rw [normalizeInPlace_none m p hp]
    unfold docEmbedding
    exact Mem.get_alloc_fresh m _
  · intro hp hemp
    unfold normalizedValue
    rw [normalizeInPlace_empty m p r hp hemp]
    unfold docEmbedding
    exact Mem.get_alloc_fresh m _
  · intro hp hlong
    unfold normalizedValue
    rw [normalizeInPlace_long m p r hp hlong]
    unfold docEmbedding
    exact Mem.get_alloc_fresh m _
  · intro hp hne hshort
    unfold normalizedValue
    rw [normalizeInPlace_pad m p r hp hne hshort]
    unfold docEmbedding
    rw [hp]
    exact Mem.get_set_self _ _ _ (m.get_in_range r hne)

/-- Witness for C2: a product with a missing embedding is indexed with a
1024-length vector. -/
theorem bulk_index_embedding_dimension_witness :
    (docEmbedding (bulkPrepare ⟨[]⟩ [⟨"P1", none⟩]).1 ⟨"P1", some 0⟩).length
      = 1024 :=
  (bulk_index_embedding_dimension ⟨[]⟩ [⟨"P1", none⟩] ⟨"P1", some 0⟩
    ⟨"P1", none⟩ 0 (by decide)).1

/-! ## Claim C10: shallow copy and in-place padding aliasing -/

/-- C10 counterexample: a product whose embedding list exists but is empty —
so its length 0 is "shorter than 1024" — takes the missing/falsy branch, not
the padding branch: the caller's list object (cell 0) still has length 0
after the call, not 1024, and the indexed copy was rebound to a fresh object
(cell 1). -/
theorem shallow_copy_empty_embedding_counterexample :
    ((normalizeInPlace ⟨[[]]⟩ ⟨"P1", some 0⟩).1.get 0).length = 0 ∧
    ((normalizeInPlace ⟨[[]]⟩ ⟨"P1", some 0⟩).1.get 0).length ≠ 1024 ∧
    (normalizeInPlace ⟨[[]]⟩ ⟨"P1", some 0⟩).2.embedding = some 1 :=
  ⟨rfl, by decide, rfl⟩

/-- C10 (amended).  Bulk indexing copies each product dict only shallowly, so
for a product whose embedding list is non-empty and shorter than 1024 the
padding branch mutates the caller's own list object in place: after the call
the caller's list has length exactly 1024 and the document still references
it.  The missing-or-empty-embedding and truncation branches instead rebind
the copy to a fresh object and leave the caller's cells unchanged. -/
theorem shallow_copy_padding_aliasing
    (m : Mem) (p : RefProduct) (r : ℕ) (hr : p.embedding = some r) :
    (m.get r ≠ [] → (m.get r).length < 1024 →
      (normalizeInPlace m p).1.get r =
        m.get r ++ List.replicate (1024 - (m.get r).length) 0 ∧
      ((normalizeInPlace m p).1.get r).length = 1024 ∧
      (normalizeInPlace m p).2 = p) ∧
    (r < m.cells.length → m.get r = [] →
      (normalizeInPlace m p).1.get r = m.get r ∧
      (normalizeInPlace m p).2.embedding ≠ some r) ∧
    (1024 < (m.get r).length →
      (normalizeInPlace m p).1.get r = m.get r ∧
      (normalizeInPlace m p).2.embedding ≠ some r) ∧
    ((m.get r).length = 1024 → normalizeInPlace m p = (m, p)) ∧
    (∀ (p2 : RefProduct) (i : ℕ), p2.embedding = none → i < m.cells.length →
      (normalizeInPlace m p2).1.get i = m.get i) := by
  refine ⟨?_, ?_, ?_, ?_, ?_⟩
  · intro hne hshort
    rw [normalizeInPlace_pad m p r hr hne hshort]
    have hrange := m.get_in_range r hne
    refine ⟨Mem.get_set_self _ _ _ hrange, ?_, rfl⟩
    rw [Mem.get_set_self _ _ _ hrange]
    simp only [List.length_append, List.length_replicate]
    omega
  · intro hrange hemp
    rw [normalizeInPlace_empty m p r hr hemp]
    refine ⟨Mem.get_alloc_preserve _ _ _ hrange, ?_⟩
    simp only [Mem.alloc, ne_eq, Option.some.injEq]
    omega
  · intro hlong
    have hne : m.get r ≠ [] := by
      intro hc
      rw [hc] at hlong
      simp at hlong
    have hrange := m.get_in_range r hne
    rw [normalizeInPlace_long m p r hr hlong]
    refine ⟨Mem.get_alloc_preserve _ _ _ hrange, ?_⟩
    simp only [Mem.alloc, ne_eq, Option.some.injEq]
    omega
  · intro hlen
    exact normalizeInPlace_exact m p r hr hlen
  · intro p2 i hp2 hi
    rw [normalizeInPlace_none m p2 hp2]
    exact Mem.get_alloc_preserve _ _ _ hi

/-- Witness for C10 (amended): a one-element embedding list is padded in
place to length 1024 at the caller's own cell. -/
theorem shallow_copy_padding_aliasing_witness :
    ((normalizeInPlace ⟨[[5]]⟩ ⟨"P", some 0⟩).1.get 0).length = 1024 :=
  ((shallow_copy_padding_aliasing ⟨[[5]]⟩ ⟨"P", some 0⟩ 0 rfl).1
    (by decide) (by decide)).2.1

/-! ## Claim C5: bulk-indexing partial-failure semantics -/

/-- C5 counterexample: in the normal bulk path (`raise_on_error=False`, so
per-document failures are returned, not raised), a batch where the single
document fails still yields `success = True` with `successful = 0` —
refuting "the success flag is true exactly when at least one document
indexed". -/
theorem bulk_index_success_flag_counterexample :
    (bulk_index_products [⟨"P1", none⟩]
      (.ok 0 [⟨"P1", "mapper_parsing_exception"⟩])).success = true ∧
    (bulk_index_products [⟨"P1", none⟩]
      (.ok 0 [⟨"P1", "mapper_parsing_exception"⟩])).successful = 0 :=
  ⟨rfl, rfl⟩

/-- C5 (amended).  Bulk indexing has partial-failure semantics: the result
always reports the batch total, the successful and failed counts, and an
errors list bounded to the first 10 per-document errors; one failed document
does not abort the operation.  The success flag, however, is the literal
`True` in the normal path (where per-document errors are returned by the
helper), whatever the counts; only in the `BulkIndexError` handling path is
it true exactly when at least one document indexed. -/
theorem bulk_index_partial_failure_reporting
    (products : List RefProduct) (outcome : BulkOutcome)
    (successful : ℕ) (failedL errs : List DocErr) :
    (bulk_index_products products outcome).errors.length ≤ 10 ∧
    (bulk_index_products products outcome).total_products = products.length ∧
    bulk_index_products products (.ok successful failedL) =
      { success := true
        total_products := products.length
        successful := (successful : ℤ)
        failed := failedL.length
        errors := failedL.take 10 } ∧
    ((bulk_index_products products (.bulkIndexError errs)).success = true ↔
      0 < (products.length : ℤ) - errs.length) ∧
    (bulk_index_products products (.bulkIndexError errs)).successful =
      (products.length : ℤ) - errs.length ∧
    (bulk_index_products products (.bulkIndexError errs)).failed =
      errs.length := by
  refine ⟨?_, ?_, rfl, ?_, rfl, rfl⟩
  · cases outcome with
    | ok s f => exact List.length_take_le _ _
    | bulkIndexError e => exact List.length_take_le _ _
  · cases outcome with
    | ok s f => rfl
    | bulkIndexError e => rfl
  · simp [bulk_index_products]

/-! ## Claim C4: the document store receives the embedding field -/

/-- C4 evaluation (code bug).  A processed product carrying an embedding,
passed through `load_to_dynamodb` → `batch_write_products`, is written to the
document store with its `embedding` field intact: no key is removed on the
way to the store, contradicting the specified exclusion of the vector from
the store copy (the repository's sibling lambda loader does strip it). -/
theorem load_to_dynamodb_stores_embedding :
    ((load_to_dynamodb "2026-01-01T00:00:00"
        [{ id := "P1", name := "Vitamin D3", price := 10,
           embedding := some [1, 2, 3],
           created_at := none, updated_at := none }]).map
      StoreProduct.embedding) = [some [1, 2, 3]] := rfl

/-! ## Claim C8: malformed-price coercion -/

/-- C8.  A raw catalog record whose price is a string that cannot be parsed
as a number is transformed with its price set to 0.0, and the record is still
processed: the search-processing stage maps every raw product to exactly one
transformed product (no skips, no aborts), and the store write stage writes
every product it is given. -/
theorem transform_price_coercion_fail_soft
    (pyHash : String → Int)
    (embed : TransformedProduct → Option (List ℚ))
    (products : List RawProduct) (p : RawProduct) (s : String)
    (now : String) (stored : List StoreProduct)
    (hp : p.price = some (.str s)) (hs : pyFloat? s = none) :
    (_transform_product_data pyHash p).price = some (.num 0) ∧
    (process_products_for_search pyHash embed products).length =
      products.length ∧
    (process_products_for_search pyHash embed products).map Prod.fst =
      products.map (_transform_product_data pyHash) ∧
    (batch_write_products now stored).length = stored.length := by
  refine ⟨?_, ?_, ?_, ?_⟩
  · unfold _transform_product_data
    rw [hp]
    simp [hs]
  · unfold process_products_for_search
    simp
  · unfold process_products_for_search
    rw [List.map_map]
    refine List.map_congr_left (fun q _ => ?_)
    simp only [Function.comp]
    cases embed (_transform_product_data pyHash q) <;> rfl
  · unfold batch_write_products
    simp

/-- Witness for C8: in a five-product catalog where the fourth product's
price is the unparseable string "free", the pipeline still yields five
processed products and that product's price is coerced to 0. -/
theorem transform_price_coercion_fail_soft_witness :
    (_transform_product_data (fun _ => 0)
      ⟨some "D", none, some "P4", none, none, none,
        some (.str "free"), none⟩).price = some (.num 0) ∧
    (process_products_for_search (fun _ => 0) (fun _ => none)
      [⟨some "A", none, some "P1", none, none, none, some (.num 10), none⟩,
       ⟨some "B", none, some "P2", none, none, none, some (.num 20), none⟩,
       ⟨some "C", none, some "P3", none, none, none, none, none⟩,
       ⟨some "D", none, some "P4", none, none, none, some (.str "free"), none⟩,
       ⟨some "E", none, some "P5", none, none, none, some (.num 5), none⟩]).length
      = 5 :=
  ⟨(transform_price_coercion_fail_soft (fun _ => 0) (fun _ => none) []
      ⟨some "D", none, some "P4", none, none, none, some (.str "free"), none⟩
      "free" "" [] rfl (by decide)).1,
   (transform_price_coercion_fail_soft (fun _ => 0) (fun _ => none)
      [⟨some "A", none, some "P1", none, none, none, some (.num 10), none⟩,
       ⟨some "B", none, some "P2", none, none, none, some (.num 20), none⟩,
       ⟨some "C", none, some "P3", none, none, none, none, none⟩,
       ⟨some "D", none, some "P4", none, none, none, some (.str "free"), none⟩,
       ⟨some "E", none, some "P5", none, none, none, some (.num 5), none⟩]
      ⟨some "D", none, some "P4", none, none, none, some (.str "free"), none⟩
      "free" "" [] rfl (by decide)).2.1⟩

end HyperPersonal
